import Mathlib

set_option maxHeartbeats 1600000

/-!
Shallow embedding of minuitwrp/truetype.c (TWRP truetype text rendering).

Modelling conventions:
* C strings are lists of their non-NUL bytes (`List Nat`).
* The FreeType library is an external collaborator; an `FTFace` packages the
  oracle functions the code calls on a face (`FT_Get_Char_Index`,
  `FT_Load_Glyph`/`FT_Get_Glyph` collapsed into one fallible lookup,
  `FT_HAS_KERNING`, `FT_Get_Kerning`).
* `cutils` hashmaps paired with the intrusive recency list are modelled as one
  Lean list: for the string cache the list is the recency list itself (head =
  least recently used, last element = most recently used) and the hashmap's
  contents coincide with the list's entries, which is an invariant of the C
  code (both structures are always updated together).
* Pixel buffers are abstracted to the sequence of glyph-bitmap copies
  (`Blit`s) performed into them, keeping the exact offset arithmetic of
  `gr_ttf_copy_glyph_to_surface`.
* Machine integers are `Int`/`Nat`; `int` values that stay nonnegative in the
  code (sizes, advances, counts) are `Nat` where that is faithful.
-/

namespace TrueTypeSpec

/-- STRING_CACHE_MAX_ENTRIES from truetype.c line 18. -/
def STRING_CACHE_MAX_ENTRIES : Nat := 400

/-- STRING_CACHE_TRUNCATE_ENTRIES from truetype.c line 19. -/
def STRING_CACHE_TRUNCATE_ENTRIES : Nat := 150

/-- FreeType's FT_PIXEL_MODE_GRAY enumerator value. -/
def FT_PIXEL_MODE_GRAY : Nat := 2

/-- pixelflinger's GGL_PIXEL_FORMAT_A_8 enumerator value. -/
def GGL_PIXEL_FORMAT_A_8 : Nat := 8

/-- C LONG_MAX on the 64-bit targets this file is built for. -/
def LONG_MAX : Int := 2 ^ 63 - 1

/-- C LONG_MIN on the 64-bit targets this file is built for. -/
def LONG_MIN : Int := -(2 ^ 63)

/-- utf8_to_unicode (truetype.c lines 89-98): combines three bytes into an
`unsigned short` code point.  The intermediate `(c1 & 0x1F) << 12` can reach
bit 16, which the `unsigned short` assignment truncates away; the `% 65536`
models that truncation. -/
def utf8_to_unicode (c1 c2 c3 : Nat) : Nat :=
  ((((c1 &&& 0x1F) <<< 12) % 65536) ||| ((c2 &&& 0x3F) <<< 6)) ||| (c3 &&& 0x3F)

/-- Arithmetic right shift by 6 on a signed value, as gcc compiles
`delta.x >> 6` (floor division by 64). -/
def sar6 (d : Int) : Int := Int.fdiv d 64

/-- One rasterized glyph as the code reads it off a FreeType
`FT_BitmapGlyph`: the 16.16 fixed-point horizontal advance (nonnegative for
the horizontal layouts this code uses), bitmap placement bearings, bitmap
geometry and rows, and the pixel bounding box `FT_Glyph_Get_CBox` reports
(only the y extents are read by the code). -/
structure FTGlyph where
  advanceX : Nat
  left : Int
  top : Int
  rows : Nat
  width : Nat
  pitch : Int
  pixel_mode : Nat
  bitmap : List (List Nat)
  bboxYMin : Int
  bboxYMax : Int
deriving DecidableEq

instance : Inhabited FTGlyph := ⟨⟨0, 0, 0, 0, 0, 0, 0, [], 0, 0⟩⟩

/-- The FreeType face oracle: everything the code asks FreeType about a
loaded face.  `loadGlyph` covers the `FT_Load_Glyph` + `FT_Get_Glyph` pair
(`none` when either fails); it is deterministic, as a fixed face is. -/
structure FTFace where
  charIndex : Nat → Nat
  loadGlyph : Nat → Option FTGlyph
  hasKerning : Bool
  kerning : Nat → Nat → Int

/-- TrueTypeCacheEntry (truetype.c lines 45-49): bbox y extents plus the
glyph. -/
structure TrueTypeCacheEntry where
  bboxYMin : Int
  bboxYMax : Int
  glyph : FTGlyph
deriving DecidableEq

instance : Inhabited TrueTypeCacheEntry := ⟨⟨0, 0, default⟩⟩

/-- The per-font glyph cache: hashmap from glyph index to entry, modelled as
an association list in insertion order. -/
abbrev GlyphCache := List (Nat × TrueTypeCacheEntry)

/-- gr_ttf_glyph_cache_peek (truetype.c lines 294-297): lookup without
rasterizing. -/
def gr_ttf_glyph_cache_peek (cache : GlyphCache) (char_index : Nat) :
    Option TrueTypeCacheEntry :=
  (List.find? (fun p => p.1 == char_index) cache).map (fun p => p.2)

/-- gr_ttf_glyph_cache_get (truetype.c lines 299-331): lookup, rasterizing
and inserting on a miss; a rasterizer failure is returned as `none` and
nothing is inserted. -/
def gr_ttf_glyph_cache_get (face : FTFace) (cache : GlyphCache)
    (char_index : Nat) : Option TrueTypeCacheEntry × GlyphCache :=
  match gr_ttf_glyph_cache_peek cache char_index with
  | some res => (some res, cache)
  | none =>
    match face.loadGlyph char_index with
    | none => (none, cache)
    | some glyph =>
      let res : TrueTypeCacheEntry :=
        { bboxYMin := glyph.bboxYMin, bboxYMax := glyph.bboxYMax, glyph := glyph }
      (some res, cache ++ [(char_index, res)])

/-- One glyph-bitmap copy into a surface, recording the destination offset
`(offY + base - glyph->top)*stride + (offX + glyph->left)` and the copied
bitmap, abstracting the row-by-row memcpy loop. -/
structure Blit where
  destOff : Int
  rows : Nat
  width : Nat
  bitmap : List (List Nat)
deriving DecidableEq

/-- GGLSurface as the code fills it (the `version` field is bookkeeping for
pixelflinger and is omitted); `data` abstracts the A8 pixel buffer to the
list of glyph blits performed into it. -/
structure GGLSurface where
  width : Int
  height : Int
  stride : Int
  format : Nat
  data : List Blit
deriving DecidableEq

instance : Inhabited GGLSurface := ⟨⟨0, 0, 0, 0, []⟩⟩

/-- StringCacheKey (truetype.c lines 51-55). -/
structure StringCacheKey where
  text : List Nat
  max_width : Int
deriving DecidableEq

/-- StringCacheEntry (truetype.c lines 57-64); the prev/next intrusive
pointers are represented by the entry's position in the recency list. -/
structure StringCacheEntry where
  surface : GGLSurface
  rendered_len : Nat
  key : StringCacheKey
deriving DecidableEq

instance : Inhabited StringCacheEntry := ⟨⟨default, 0, ⟨[], 0⟩⟩⟩

/-- TrueTypeFont (truetype.c lines 28-43).  `string_cache` is the recency
list (head = least recently used, last = most recently used); the string
hashmap's contents always coincide with it.  The mutex is omitted (calls are
modelled as atomic, which the per-font lock guarantees). -/
structure TrueTypeFont where
  size : Nat
  dpi : Nat
  face : FTFace
  max_height : Int
  base : Int
  glyph_cache : GlyphCache
  string_cache : List StringCacheEntry

/-- Decoding loop shared verbatim by gr_ttf_render_text (lines 370-381) and
gr_ttf_maxExW (lines 570-581): a byte < 0x80 is consumed alone; a byte >=
0x80 consumes the two following bytes and goes through utf8_to_unicode.  If
the string ends inside a 3-byte sequence the C code reads the NUL terminator
(and the byte after it); missing bytes are modelled as 0. -/
def utf8_decode : List Nat → List Nat
  | [] => []
  | c :: rest =>
    if c < 0x80 then c :: utf8_decode rest
    else
      match rest with
      | c2 :: c3 :: r => utf8_to_unicode c c2 c3 :: utf8_decode r
      | [c2] => [utf8_to_unicode c c2 0]
      | [] => [utf8_to_unicode c 0 0]

/-- gr_ttf_copy_glyph_to_surface (truetype.c lines 333-354): refuses any
pixel mode other than FT_PIXEL_MODE_GRAY with -1 and no copy; otherwise
records the bitmap copy at the destination offset the code computes. -/
def gr_ttf_copy_glyph_to_surface (dest : GGLSurface) (glyph : FTGlyph)
    (offX offY base : Int) : Int × GGLSurface :=
  if glyph.pixel_mode ≠ FT_PIXEL_MODE_GRAY then (-1, dest)
  else
    (0, { dest with data := dest.data ++
      [{ destOff := (offY + base - glyph.top) * dest.stride + (offX + glyph.left),
         rows := glyph.rows, width := glyph.width, bitmap := glyph.bitmap }] })

/-- Scanning loop of gr_ttf_getMaxFontHeight (truetype.c lines 670-695) over
the printable range, folding min/max of the y extents; a cached entry is
used when present, otherwise a load-then-discard probe; a failed probe
contributes nothing. -/
def metrics_scan (f : TrueTypeFont) : List Nat → Int × Int → Int × Int
  | [], acc => acc
  | c :: cs, (yMin, yMax) =>
    let char_idx := f.face.charIndex c
    match gr_ttf_glyph_cache_peek f.glyph_cache char_idx with
    | some ent => metrics_scan f cs (min yMin ent.bboxYMin, max yMax ent.bboxYMax)
    | none =>
      match f.face.loadGlyph char_idx with
      | some glyph => metrics_scan f cs (min yMin glyph.bboxYMin, max yMax glyph.bboxYMax)
      | none => metrics_scan f cs (yMin, yMax)

/-- Character codes of the printable ASCII range scanned by
gr_ttf_getMaxFontHeight, 33 = exclamation mark up to 126 = tilde. -/
def printableRange : List Nat := List.range' 33 94

/-- gr_ttf_getMaxFontHeight (truetype.c lines 650-713): computes and caches
max_height and base on first call, returning the cached value afterwards. -/
def gr_ttf_getMaxFontHeight (f : TrueTypeFont) : Int × TrueTypeFont :=
  if f.max_height ≠ -1 then (f.max_height, f)
  else
    let scanned := metrics_scan f printableRange (LONG_MAX, LONG_MIN)
    let yMin := scanned.1
    let yMax := scanned.2
    let yMin' := if yMin > yMax then 0 else yMin
    let yMax' := if yMin > yMax then 0 else yMax
    let mh := yMax' - yMin' + (f.size / 4 : Nat)
    let b := yMax' + (f.size / 4 : Nat)
    (mh, { f with max_height := mh, base := b })

/-- Measuring pass of gr_ttf_render_text (truetype.c lines 370-401), over the
decoded code points: returns the updated glyph cache, the list of glyph
indices of the completed iterations (char_idxs up to max_len; the index of
the iteration that breaks is stored in the C array but never read), and
total_w. -/
def rt_measure (face : FTFace) (max_width : Int) :
    List Nat → GlyphCache → Nat → Int → GlyphCache × List Nat × Int
  | [], cache, _, total_w => (cache, [], total_w)
  | cp :: rest, cache, prev_idx, total_w =>
    let char_idx := face.charIndex cp
    match gr_ttf_glyph_cache_get face cache char_idx with
    | (some ent, cache') =>
      let diff : Int := (ent.glyph.advanceX >>> 16 : Nat)
      let diff := if face.hasKerning ∧ prev_idx ≠ 0 ∧ char_idx ≠ 0 then
          diff + sar6 (face.kerning prev_idx char_idx) else diff
      if max_width ≠ -1 ∧ total_w + diff > max_width then (cache', [], total_w)
      else
        let r := rt_measure face max_width rest cache' char_idx (total_w + diff)
        (r.1, char_idx :: r.2.1, r.2.2)
    | (none, cache') =>
      let r := rt_measure face max_width rest cache' char_idx total_w
      (r.1, char_idx :: r.2.1, r.2.2)

/-- Compositing pass of gr_ttf_render_text (truetype.c lines 426-443) over
the recorded glyph indices: kerning moves the cursor, a cached glyph is
copied (its copy failure ignored) and advances the cursor, a failed glyph is
skipped. -/
def rt_composite (face : FTFace) (base : Int) :
    List Nat → GlyphCache → GGLSurface → Int → Nat → GlyphCache × GGLSurface
  | [], cache, surface, _, _ => (cache, surface)
  | char_idx :: rest, cache, surface, x, prev_idx =>
    let x := if face.hasKerning ∧ prev_idx ≠ 0 ∧ char_idx ≠ 0 then
        x + sar6 (face.kerning prev_idx char_idx) else x
    match gr_ttf_glyph_cache_get face cache char_idx with
    | (some ent, cache') =>
      let surface := (gr_ttf_copy_glyph_to_surface surface ent.glyph x 0 base).2
      rt_composite face base rest cache' surface
        (x + (ent.glyph.advanceX >>> 16 : Nat)) char_idx
    | (none, cache') => rt_composite face base rest cache' surface x char_idx

/-- gr_ttf_render_text (truetype.c lines 356-447): measures and clips the
string, computes font metrics if needed (failing with `none`, the -1 path),
then composites the surface.  Returns the surface and max_len together with
the updated font (glyph cache and metrics). -/
def gr_ttf_render_text (font : TrueTypeFont) (text : List Nat)
    (max_width : Int) : Option (GGLSurface × Nat) × TrueTypeFont :=
  let m := rt_measure font.face max_width (utf8_decode text) font.glyph_cache 0 0
  let char_idxs := m.2.1
  let total_w := m.2.2
  let font := { font with glyph_cache := m.1 }
  let font := if font.max_height = -1 then (gr_ttf_getMaxFontHeight font).2 else font
  if font.max_height = -1 then (none, font)
  else
    let surface0 : GGLSurface :=
      { width := total_w, height := font.max_height, stride := total_w,
        format := GGL_PIXEL_FORMAT_A_8, data := [] }
    let c := rt_composite font.face font.base char_idxs font.glyph_cache surface0 0 0
    (some (c.2, char_idxs.length), { font with glyph_cache := c.1 })

/-- gr_ttf_string_cache_peek (truetype.c lines 449-458): lookup without
rendering or promotion. -/
def gr_ttf_string_cache_peek (font : TrueTypeFont) (text : List Nat)
    (max_width : Int) : Option StringCacheEntry :=
  List.find? (fun e => e.key == StringCacheKey.mk text max_width) font.string_cache

/-- gr_ttf_string_cache_get (truetype.c lines 460-534).  Miss: render and
append at the tail (returning `none` and caching nothing when rendering
fails).  Hit on the tail (`res->next == NULL`): no change.  Hit elsewhere:
unlink the node and re-append it at the tail, then, when the hashmap holds
at least STRING_CACHE_MAX_ENTRIES entries, remove the
STRING_CACHE_TRUNCATE_ENTRIES head (least recently used) entries from both
hashmap and list and free them. -/
def gr_ttf_string_cache_get (font : TrueTypeFont) (text : List Nat)
    (max_width : Int) : Option StringCacheEntry × TrueTypeFont :=
  let l := font.string_cache
  match List.findIdx? (fun e => e.key == StringCacheKey.mk text max_width) l with
  | none =>
    match gr_ttf_render_text font text max_width with
    | (none, font') => (none, font')
    | (some sm, font') =>
      let e : StringCacheEntry :=
        { surface := sm.1, rendered_len := sm.2,
          key := { text := text, max_width := max_width } }
      (some e, { font' with string_cache := font'.string_cache ++ [e] })
  | some idx =>
    let res := l.getD idx default
    if idx = l.length - 1 then (some res, font)
    else
      let moved := l.eraseIdx idx ++ [res]
      let final := if STRING_CACHE_MAX_ENTRIES ≤ l.length then
          moved.drop STRING_CACHE_TRUNCATE_ENTRIES else moved
      (some res, { font with string_cache := final })

/-- gr_ttf_measureEx (truetype.c lines 536-548). -/
def gr_ttf_measureEx (s : List Nat) (font : TrueTypeFont) :
    Int × TrueTypeFont :=
  match gr_ttf_string_cache_get font s (-1) with
  | (some e, font') => (e.surface.width, font')
  | (none, font') => (-1, font')

/-- Scanning loop of gr_ttf_maxExW (truetype.c lines 570-597) over the
decoded code points, carrying (cache, prev_idx, total_w, max_len);
`max_len` counts completed iterations (`continue` on a failed glyph still
counts, `break` does not). -/
def maxExW_loop (face : FTFace) (max_width : Int) :
    List Nat → GlyphCache → Nat → Int → Nat → GlyphCache × Nat
  | [], cache, _, _, max_len => (cache, max_len)
  | cp :: rest, cache, prev_idx, total_w, max_len =>
    let char_idx := face.charIndex cp
    let total_w := if face.hasKerning ∧ prev_idx ≠ 0 ∧ char_idx ≠ 0 then
        total_w + sar6 (face.kerning prev_idx char_idx) else total_w
    if total_w > max_width then (cache, max_len)
    else
      match gr_ttf_glyph_cache_get face cache char_idx with
      | (none, cache') => maxExW_loop face max_width rest cache' char_idx total_w (max_len + 1)
      | (some ent, cache') =>
        maxExW_loop face max_width rest cache' char_idx
          (total_w + (ent.glyph.advanceX >>> 16 : Nat)) (max_len + 1)

/-- gr_ttf_maxExW (truetype.c lines 550-600): a cached entry short-circuits
to its rendered_len; otherwise the scanning loop runs and
`max_len > 0 ? max_len - 1 : 0` is returned (`Nat` subtraction agrees with
that conditional). -/
def gr_ttf_maxExW (s : List Nat) (font : TrueTypeFont) (max_width : Int) :
    Nat × TrueTypeFont :=
  match gr_ttf_string_cache_peek font s max_width with
  | some e => (e.rendered_len, font)
  | none =>
    let r := maxExW_loop font.face max_width (utf8_decode s) font.glyph_cache 0 0 0
    (r.2 - 1, { font with glyph_cache := r.1 })

/-- gr_ttf_textExWH (truetype.c lines 602-648).  Returns the C return value,
the rectangle passed to `gl->recti` when something is drawn (`none` when the
call returns without drawing), and the updated font. -/
def gr_ttf_textExWH (font : TrueTypeFont) (x y : Int) (s : List Nat)
    (max_width max_height : Int) :
    Int × Option (Int × Int × Int × Int) × TrueTypeFont :=
  if max_width ≠ -1 ∧ max_width - x ≤ 0 then (0, none, font)
  else
    let mw := if max_width ≠ -1 then max_width - x else max_width
    match gr_ttf_string_cache_get font s mw with
    | (none, font') => (-1, none, font')
    | (some e, font') =>
      let y_bottom := y + e.surface.height
      let res : Int := e.rendered_len
      if max_height ≠ -1 ∧ max_height < y_bottom then
        if max_height ≤ y then (0, none, font')
        else (res, some (x, y, x + e.surface.width, max_height), font')
      else (res, some (x, y, x + e.surface.width, y_bottom), font')

/-- TrueTypeFontKey (truetype.c lines 21-26). -/
structure TrueTypeFontKey where
  path : String
  size : Nat
  dpi : Nat
deriving DecidableEq

/-- One slot of the global font registry: the key, the handle's identity
(modelling pointer identity of the malloc'd TrueTypeFont), the refcount and
the font state. -/
structure FontSlot where
  key : TrueTypeFontKey
  id : Nat
  refcount : Nat
  font : TrueTypeFont

/-- The FreeType environment of the registry: whether FT_Init_FreeType
succeeds, and the combined FT_New_Face + FT_Set_Char_Size oracle (per path,
size, dpi; `none` when either fails). -/
structure FTEnv where
  initOk : Bool
  openFace : String → Nat → Nat → Option FTFace

/-- FontData (truetype.c lines 68-79): the library handle is a Boolean
(initialized or not), the `fonts` hashmap is a list of slots (the C NULL map
is the empty list), and `next_id` generates fresh pointer identities. -/
structure FontData where
  ft_library : Bool
  fonts : List FontSlot
  next_id : Nat

/-- Initial value of the global font_data (truetype.c lines 75-79). -/
def font_data0 : FontData := { ft_library := false, fonts := [], next_id := 0 }

/-- gr_ttf_loadFont (truetype.c lines 162-240): a hit on (path, size, dpi)
bumps the refcount and returns the same handle; otherwise the library is
lazily initialized, the face opened (failure returns NULL without touching
the registry), and a fresh handle with refcount 1 is inserted. -/
def gr_ttf_loadFont (env : FTEnv) (st : FontData) (filename : String)
    (size dpi : Nat) : Option Nat × FontData :=
  let k : TrueTypeFontKey := { path := filename, size := size, dpi := dpi }
  match List.find? (fun s => s.key == k) st.fonts with
  | some s =>
    let fonts' := st.fonts.map (fun t =>
      if t.key == k then { t with refcount := t.refcount + 1 } else t)
    (some s.id, { st with fonts := fonts' })
  | none =>
    if ¬ st.ft_library ∧ ¬ env.initOk then (none, st)
    else
      let st := { st with ft_library := true }
      match env.openFace filename size dpi with
      | none => (none, st)
      | some face =>
        let fnt : TrueTypeFont :=
          { size := size, dpi := dpi, face := face, max_height := -1, base := -1,
            glyph_cache := [], string_cache := [] }
        let slot : FontSlot := { key := k, id := st.next_id, refcount := 1, font := fnt }
        (some st.next_id,
         { st with fonts := st.fonts ++ [slot], next_id := st.next_id + 1 })

/-- gr_ttf_freeFont (truetype.c lines 263-292): decrement the refcount; at
zero remove the slot from the registry and free everything (freeing the face
and draining both caches is subsumed by dropping the slot). -/
def gr_ttf_freeFont (st : FontData) (id : Nat) : FontData :=
  match List.find? (fun s => s.id == id) st.fonts with
  | none => st
  | some s =>
    if s.refcount - 1 = 0 then
      { st with fonts := st.fonts.filter (fun t => ¬ t.id == id) }
    else
      let fonts' := st.fonts.map (fun t =>
        if t.id == id then { t with refcount := t.refcount - 1 } else t)
      { st with fonts := fonts' }

/-! Specification-side definitions, written from the spec's words, used to
state the claims against the embedded code. -/

/-- Advance widths, in pixels, of the glyphs of a decoded code-point list
(the spec's per-glyph "advance"; 0 for a glyph the rasterizer cannot load,
which contributes no width in either code path). -/
def advList (face : FTFace) (cps : List Nat) : List Nat :=
  cps.map (fun cp =>
    match face.loadGlyph (face.charIndex cp) with
    | some g => g.advanceX >>> 16
    | none => 0)

/-- Cumulative advance of the first n glyphs (the spec's "cumulative
advance", kerning-free form). -/
def specCumAdv (advs : List Nat) (n : Nat) : Nat := ((advs.take n).map id).sum

/-- Number of leading glyphs whose cumulative advance fits within W: the
spec's "glyph count n such that the first n glyphs' cumulative advance is
at most W" (largest such n when advances are nonnegative). -/
def specFitCount (advs : List Nat) (W : Int) : Nat :=
  match advs with
  | [] => 0
  | a :: r => if (a : Int) ≤ W then 1 + specFitCount r (W - a) else 0

/-! Concrete instances used by counterexamples and witnesses. -/

/-- A gray-mode glyph with a 5-pixel advance (advance.x is 16.16
fixed-point, so 5 <<< 16). -/
def tGlyph : FTGlyph :=
  { advanceX := 5 <<< 16, left := 0, top := 0, rows := 1, width := 1, pitch := 1,
    pixel_mode := FT_PIXEL_MODE_GRAY, bitmap := [[255]], bboxYMin := 0, bboxYMax := 4 }

/-- A face mapping every code point to glyph index 1, which loads as
tGlyph; no kerning. -/
def tFace : FTFace :=
  { charIndex := fun _ => 1,
    loadGlyph := fun i => if i = 1 then some tGlyph else none,
    hasKerning := false, kerning := fun _ _ => 0 }

/-- A font over tFace with metrics already computed (max_height 10), empty
caches. -/
def tFont : TrueTypeFont :=
  { size := 8, dpi := 160, face := tFace, max_height := 10, base := 8,
    glyph_cache := [], string_cache := [] }

/-- A face whose rasterizer fails on every glyph. -/
def nFace : FTFace :=
  { charIndex := fun _ => 1, loadGlyph := fun _ => none,
    hasKerning := false, kerning := fun _ _ => 0 }

/-- A font over nFace with metrics already computed, empty caches. -/
def nFont : TrueTypeFont :=
  { size := 8, dpi := 160, face := nFace, max_height := 10, base := 8,
    glyph_cache := [], string_cache := [] }

/-- One gr_ttf_string_cache_get insertion with the empty text and
max_width i, as a fold step. -/
def c1_insert (f : TrueTypeFont) (i : Nat) : TrueTypeFont :=
  (gr_ttf_string_cache_get f [] (i : Int)).2

/-- The string cache state after inserting n distinct (text, max_width)
keys into nFont through gr_ttf_string_cache_get. -/
def c1_state (n : Nat) : TrueTypeFont := (List.range n).foldl c1_insert nFont

/-- The string cache entry c1_insert appends for key ([], i) on a miss:
an empty 0-wide surface of height 10 and rendered_len 0. -/
def c1_entry (i : Nat) : StringCacheEntry :=
  { surface := { width := 0, height := 10, stride := 0,
                 format := GGL_PIXEL_FORMAT_A_8, data := [] },
    rendered_len := 0, key := { text := [], max_width := (i : Int) } }

/-- A cached composited string of height 20 for key ([65], -1). -/
def c5Entry : StringCacheEntry :=
  { surface := { width := 7, height := 20, stride := 7,
                 format := GGL_PIXEL_FORMAT_A_8, data := [] },
    rendered_len := 3, key := { text := [65], max_width := -1 } }

/-- A font whose string cache already holds c5Entry. -/
def c5Font : TrueTypeFont :=
  { size := 8, dpi := 160, face := nFace, max_height := 20, base := 8,
    glyph_cache := [], string_cache := [c5Entry] }

/-- A font with uncomputed metrics over the always-failing face, size 8. -/
def c6Font : TrueTypeFont :=
  { size := 8, dpi := 160, face := nFace, max_height := -1, base := -1,
    glyph_cache := [], string_cache := [] }

/-- A glyph whose pixel mode is not FT_PIXEL_MODE_GRAY (mode 0 =
FT_PIXEL_MODE_NONE). -/
def bGlyph : FTGlyph :=
  { advanceX := 5 <<< 16, left := 0, top := 0, rows := 1, width := 1, pitch := 1,
    pixel_mode := 0, bitmap := [[255]], bboxYMin := 0, bboxYMax := 4 }

/-- A face whose glyph index 1 loads with an unsupported pixel mode. -/
def bFace : FTFace :=
  { charIndex := fun _ => 1,
    loadGlyph := fun i => if i = 1 then some bGlyph else none,
    hasKerning := false, kerning := fun _ _ => 0 }

/-- A FreeType environment whose face opening always succeeds with tFace. -/
def tEnv : FTEnv := { initOk := true, openFace := fun _ _ _ => some tFace }

/-- A string cache state holding n entries keyed ([], 0) .. ([], n-1) in
recency order, over nFont. -/
def fontN (n : Nat) : TrueTypeFont :=
  { nFont with string_cache := (List.range n).map c1_entry }

/-! Helper lemmas. -/

theorem or_mod_two_pow (a b n : Nat) : (a % 2 ^ n) ||| (b % 2 ^ n) = (a ||| b) % 2 ^ n := by
  apply Nat.eq_of_testBit_eq
  intro i
  simp [Nat.testBit_mod_two_pow, Nat.testBit_or]
  by_cases h : i < n <;> simp [h]

/-! Claim theorems. -/

/-- C7: both shaping paths decode through `utf8_decode`: a leading byte
below 0x80 is consumed as exactly one byte and emitted directly; a leading
byte at or above 0x80 consumes exactly three bytes, combined by
utf8_to_unicode into the 16-bit code point
`((c1 &&& 0x1F) <<< 12) ||| ((c2 &&& 0x3F) <<< 6) ||| (c3 &&& 0x3F)`
(as a 16-bit `unsigned short` value, hence the `% 65536`); the two cases
are exhaustive, so no other sequence length is ever consumed. -/
theorem claim_C7 (b c2 c3 : Nat) (rest r : List Nat) :
    (b < 0x80 → utf8_decode (b :: rest) = b :: utf8_decode rest) ∧
    (0x80 ≤ b → utf8_decode (b :: c2 :: c3 :: r) =
      ((((b &&& 0x1F) <<< 12) ||| ((c2 &&& 0x3F) <<< 6) ||| (c3 &&& 0x3F)) % 65536)
        :: utf8_decode r) ∧
    utf8_to_unicode b c2 c3 =
      ((((b &&& 0x1F) <<< 12) ||| ((c2 &&& 0x3F) <<< 6) ||| (c3 &&& 0x3F)) % 65536) := by
  have hu : utf8_to_unicode b c2 c3 =
      ((((b &&& 0x1F) <<< 12) ||| ((c2 &&& 0x3F) <<< 6) ||| (c3 &&& 0x3F)) % 65536) := by
    unfold utf8_to_unicode
    have h2 : ((c2 &&& 0x3F) <<< 6) < 2 ^ 16 := by
      have : c2 &&& 0x3F ≤ 0x3F := Nat.and_le_right
      have : (c2 &&& 0x3F) <<< 6 ≤ 0x3F <<< 6 := by
        simp only [Nat.shiftLeft_eq]
        exact Nat.mul_le_mul_right _ this
      omega
    have h3 : (c3 &&& 0x3F) < 2 ^ 16 := by
      have : c3 &&& 0x3F ≤ 0x3F := Nat.and_le_right
      omega
    have e2 : ((c2 &&& 0x3F) <<< 6) % 2 ^ 16 = (c2 &&& 0x3F) <<< 6 := Nat.mod_eq_of_lt h2
    have e3 : (c3 &&& 0x3F) % 2 ^ 16 = c3 &&& 0x3F := Nat.mod_eq_of_lt h3
    have s16 : (65536 : Nat) = 2 ^ 16 := by norm_num
    rw [s16]
    rw [← e2, or_mod_two_pow, ← e3, or_mod_two_pow]
    rw [e2, e3]
  refine ⟨fun h => ?_, fun h => ?_, hu⟩
  · conv_lhs => rw [utf8_decode.eq_def]
    simp [h]
  · have hb : ¬ b < 0x80 := by omega
    conv_lhs => rw [utf8_decode.eq_def]
    simp [hb, hu]

/-- C9: with no cached entry for (s, -1), gr_ttf_maxExW with the
unconstrained sentinel -1 returns 0 for every string: the loop's
`total_w > max_width` test fires immediately because 0 > -1, before any
glyph advance is accumulated. -/
theorem claim_C9 (s : List Nat) (font : TrueTypeFont)
    (hmiss : gr_ttf_string_cache_peek font s (-1) = none) :
    (gr_ttf_maxExW s font (-1)).1 = 0 := by
  simp only [gr_ttf_maxExW, hmiss]
  cases h : utf8_decode s with
  | nil => simp [maxExW_loop]
  | cons cp rest =>
    rw [maxExW_loop]
    simp

/-- C9 witness: a nonempty string over a font whose single glyph has a
positive advance still measures as 0 under max_width = -1. -/
theorem claim_C9_witness : (gr_ttf_maxExW [65] tFont (-1)).1 = 0 :=
  claim_C9 [65] tFont rfl

/-- C8: per-glyph failures never abort a string.  First conjunct: a
rasterizer failure makes gr_ttf_glyph_cache_get return `none` with the
cache unchanged (nothing negative is cached, so the glyph is retried on the
next request).  Second: a pixel mode other than FT_PIXEL_MODE_GRAY makes
gr_ttf_copy_glyph_to_surface return -1 without copying anything.  Third:
the compositing loop skips a glyph whose load failed and continues with the
rest of the string.  Fourth: a glyph with an unsupported pixel mode
contributes no bitmap copy, but the x cursor still advances by its advance,
leaving a gap while the rest of the string renders. -/
theorem claim_C8 :
    (∀ (face : FTFace) (cache : GlyphCache) (idx : Nat),
      gr_ttf_glyph_cache_peek cache idx = none →
      face.loadGlyph idx = none →
      gr_ttf_glyph_cache_get face cache idx = (none, cache)) ∧
    (∀ (surface : GGLSurface) (glyph : FTGlyph) (offX offY base : Int),
      glyph.pixel_mode ≠ FT_PIXEL_MODE_GRAY →
      gr_ttf_copy_glyph_to_surface surface glyph offX offY base = (-1, surface)) ∧
    (∀ (face : FTFace) (base : Int) (idx : Nat) (rest : List Nat)
       (cache : GlyphCache) (surface : GGLSurface) (x : Int),
      gr_ttf_glyph_cache_get face cache idx = (none, cache) →
      rt_composite face base (idx :: rest) cache surface x 0 =
        rt_composite face base rest cache surface x idx) ∧
    (∀ (face : FTFace) (base : Int) (idx : Nat) (ent : TrueTypeCacheEntry)
       (cache' : GlyphCache) (rest : List Nat) (cache : GlyphCache)
       (surface : GGLSurface) (x : Int),
      gr_ttf_glyph_cache_get face cache idx = (some ent, cache') →
      ent.glyph.pixel_mode ≠ FT_PIXEL_MODE_GRAY →
      rt_composite face base (idx :: rest) cache surface x 0 =
        rt_composite face base rest cache' surface
          (x + (ent.glyph.advanceX >>> 16 : Nat)) idx) := by
  refine ⟨?_, ?_, ?_, ?_⟩
  · intro face cache idx hpeek hload
    unfold gr_ttf_glyph_cache_get
    rw [hpeek, hload]
  · intro surface glyph offX offY base h
    unfold gr_ttf_copy_glyph_to_surface
    rw [if_pos h]
  · intro face base idx rest cache surface x hget
    simp only [rt_composite]
    rw [hget]
    simp
  · intro face base idx ent cache' rest cache surface x hget hmode
    simp only [rt_composite]
    rw [hget]
    simp [gr_ttf_copy_glyph_to_surface, if_pos hmode]

/-- C8 witness: instantiates the failure conjunct at a concrete face whose
rasterizer fails, and the gap conjunct at a concrete unsupported-pixel-mode
glyph. -/
theorem claim_C8_witness :
    gr_ttf_glyph_cache_get nFace [] 5 = (none, []) ∧
    gr_ttf_copy_glyph_to_surface default bGlyph 0 0 8 = (-1, default) := by
  constructor
  · exact claim_C8.1 nFace [] 5 rfl rfl
  · exact claim_C8.2.1 default bGlyph 0 0 8 (by decide)

/-- Rendering the empty string succeeds without touching the font whenever
the metrics are already computed. -/
theorem render_text_nil (f : TrueTypeFont) (w : Int) (hmh : f.max_height ≠ -1) :
    gr_ttf_render_text f [] w =
      (some ({ width := 0, height := f.max_height, stride := 0,
               format := GGL_PIXEL_FORMAT_A_8, data := [] }, 0), f) := by
  simp [gr_ttf_render_text, utf8_decode, rt_measure, rt_composite, hmh]

/-- A string-cache miss on the empty text appends one entry at the tail and
never evicts. -/
theorem string_cache_get_nil_miss (f : TrueTypeFont) (w : Int) (hmh : f.max_height ≠ -1)
    (hmiss : ∀ e ∈ f.string_cache, (e.key == StringCacheKey.mk [] w) = false) :
    gr_ttf_string_cache_get f [] w =
      (some { surface := { width := 0, height := f.max_height, stride := 0,
                           format := GGL_PIXEL_FORMAT_A_8, data := [] },
              rendered_len := 0, key := { text := [], max_width := w } },
       { f with string_cache := f.string_cache ++
           [{ surface := { width := 0, height := f.max_height, stride := 0,
                           format := GGL_PIXEL_FORMAT_A_8, data := [] },
              rendered_len := 0, key := { text := [], max_width := w } }] }) := by
  have hnone : List.findIdx? (fun e => e.key == StringCacheKey.mk [] w) f.string_cache = none :=
    List.findIdx?_eq_none_iff.mpr hmiss
  simp only [gr_ttf_string_cache_get, hnone]
  rw [render_text_nil f w hmh]

/-- The fold of distinct empty-text inserts builds exactly the recency list
of its entries: no insert ever evicts. -/
theorem c1_state_eq (n : Nat) : c1_state n = fontN n := by
  induction n with
  | zero => rfl
  | succ n ih =>
    have hstep : c1_state (n + 1) = c1_insert (c1_state n) n := by
      unfold c1_state
      rw [List.range_succ, List.foldl_append]
      rfl
    rw [hstep, ih]
    unfold c1_insert
    rw [string_cache_get_nil_miss (fontN n) (n : Int) (by simp [fontN, nFont])
      (by
        intro e he
        simp only [fontN, List.mem_map, List.mem_range] at he
        obtain ⟨i, hi, rfl⟩ := he
        simp only [c1_entry, beq_eq_false_iff_ne, ne_eq, StringCacheKey.mk.injEq]
        intro hk
        omega)]
    simp only [fontN, nFont, c1_entry]
    congr 1
    rw [List.range_succ, List.map_append]
    rfl

/-- C1 amended: inserting distinct (text, max_width) keys through
gr_ttf_string_cache_get never evicts: a miss whose rendering succeeds
appends one entry at the recency tail unconditionally (first conjunct), so
MAX_ENTRIES + 1 distinct inserts leave MAX_ENTRIES + 1 entries.  An
eviction batch happens only on a cache hit that promotes a non-tail entry
while the hashmap holds at least STRING_CACHE_MAX_ENTRIES (400) entries;
that batch removes exactly STRING_CACHE_TRUNCATE_ENTRIES (150) entries,
the least-recently-used ones taken from the head of the recency list after
the promotion, each removed from the (coinciding) hashmap and recency list
and freed (second conjunct). -/
theorem claim_C1_amended (font : TrueTypeFont) (text : List Nat) (mw : Int) :
    (List.findIdx? (fun e => e.key == StringCacheKey.mk text mw) font.string_cache = none →
      ∀ (sm : GGLSurface × Nat) (font' : TrueTypeFont),
        gr_ttf_render_text font text mw = (some sm, font') →
        (gr_ttf_string_cache_get font text mw).2.string_cache =
          font'.string_cache ++
            [{ surface := sm.1, rendered_len := sm.2,
               key := { text := text, max_width := mw } }] ∧
        (gr_ttf_string_cache_get font text mw).2.string_cache.length =
          font'.string_cache.length + 1) ∧
    (∀ idx : Nat,
      List.findIdx? (fun e => e.key == StringCacheKey.mk text mw) font.string_cache = some idx →
      idx < font.string_cache.length →
      idx ≠ font.string_cache.length - 1 →
      STRING_CACHE_MAX_ENTRIES ≤ font.string_cache.length →
      (gr_ttf_string_cache_get font text mw).2.string_cache =
        (font.string_cache.eraseIdx idx ++ [font.string_cache.getD idx default]).drop
          STRING_CACHE_TRUNCATE_ENTRIES ∧
      (gr_ttf_string_cache_get font text mw).2.string_cache.length =
        font.string_cache.length - STRING_CACHE_TRUNCATE_ENTRIES) := by
  constructor
  · intro hnone sm font' hrender
    simp only [gr_ttf_string_cache_get, hnone, hrender]
    simp
  · intro idx hidx hlt hnt hsize
    simp only [gr_ttf_string_cache_get, hidx]
    rw [if_neg hnt, if_pos hsize]
    refine ⟨rfl, ?_⟩
    have he : (font.string_cache.eraseIdx idx).length = font.string_cache.length - 1 := by
      rw [List.length_eraseIdx]
      simp [hlt]
    simp only [List.length_drop, List.length_append, he, List.length_cons, List.length_nil]
    have h4 : (400 : Nat) ≤ font.string_cache.length := hsize
    omega

/-- C3: in the recency list the head is least recently used and the tail
most recently used.  A gr_ttf_string_cache_get hit on the tail entry
(`res->next == NULL`) is a no-op; a hit elsewhere unlinks the entry and
re-appends it as the new tail (updating the head if the hit was the former
head, which `List.eraseIdx 0` expresses).  Consequently an entry lying in
the victim zone (the first TRUNCATE_COUNT entries) that gets accessed is
protected from the eviction batch that would otherwise have removed it: it
survives the batch, at the tail. -/
theorem claim_C3 (font : TrueTypeFont) (text : List Nat) (mw : Int) (idx : Nat)
    (hidx : List.findIdx? (fun e => e.key == StringCacheKey.mk text mw) font.string_cache = some idx)
    (hlt : idx < font.string_cache.length) :
    (idx = font.string_cache.length - 1 →
      gr_ttf_string_cache_get font text mw =
        (some (font.string_cache.getD idx default), font)) ∧
    (idx ≠ font.string_cache.length - 1 →
      font.string_cache.length < STRING_CACHE_MAX_ENTRIES →
      (gr_ttf_string_cache_get font text mw).2.string_cache =
        font.string_cache.eraseIdx idx ++ [font.string_cache.getD idx default] ∧
      (gr_ttf_string_cache_get font text mw).2.string_cache.getLast? =
        some (font.string_cache.getD idx default)) ∧
    (STRING_CACHE_MAX_ENTRIES ≤ font.string_cache.length →
      idx < STRING_CACHE_TRUNCATE_ENTRIES →
      font.string_cache.getD idx default ∈
        font.string_cache.take STRING_CACHE_TRUNCATE_ENTRIES ∧
      font.string_cache.getD idx default ∈
        (gr_ttf_string_cache_get font text mw).2.string_cache ∧
      (gr_ttf_string_cache_get font text mw).2.string_cache.getLast? =
        some (font.string_cache.getD idx default) ∧
      (gr_ttf_string_cache_get font text mw).2.string_cache.length =
        font.string_cache.length - STRING_CACHE_TRUNCATE_ENTRIES) := by
  refine ⟨?_, ?_, ?_⟩
  · intro htail
    simp only [gr_ttf_string_cache_get, hidx]
    rw [if_pos htail]
  · intro hnt hlen
    have hnotbig : ¬ STRING_CACHE_MAX_ENTRIES ≤ font.string_cache.length := by omega
    simp only [gr_ttf_string_cache_get, hidx]
    rw [if_neg hnt, if_neg hnotbig]
    refine ⟨rfl, ?_⟩
    simp [List.getLast?_append]
  · intro hsize hsmall
    have hT : STRING_CACHE_TRUNCATE_ENTRIES = 150 := rfl
    have h4 : (400 : Nat) ≤ font.string_cache.length := hsize
    have h150 : idx < 150 := hsmall
    have hnt : idx ≠ font.string_cache.length - 1 := by omega
    simp only [gr_ttf_string_cache_get, hidx]
    rw [if_neg hnt, if_pos hsize]
    have he : (font.string_cache.eraseIdx idx).length = font.string_cache.length - 1 := by
      rw [List.length_eraseIdx]
      simp [hlt]
    have hdropapp :
        (font.string_cache.eraseIdx idx ++
            [font.string_cache.getD idx default]).drop STRING_CACHE_TRUNCATE_ENTRIES =
          (font.string_cache.eraseIdx idx).drop STRING_CACHE_TRUNCATE_ENTRIES ++
            [font.string_cache.getD idx default] := by
      apply List.drop_append_of_le_length
      rw [he, hT]
      omega
    refine ⟨?_, ?_, ?_, ?_⟩
    · have hgd : font.string_cache.getD idx default = font.string_cache[idx] := by
        rw [List.getD_eq_getElem?_getD, List.getElem?_eq_getElem hlt]
        rfl
      rw [hgd]
      have hidx' : idx < (font.string_cache.take STRING_CACHE_TRUNCATE_ENTRIES).length := by
        simp [List.length_take, hT]
        omega
      have : (font.string_cache.take STRING_CACHE_TRUNCATE_ENTRIES)[idx] =
          font.string_cache[idx] := List.getElem_take _
      rw [← this]
      exact List.getElem_mem hidx'
    · rw [hdropapp]
      exact List.mem_append_right _ (List.mem_singleton.mpr rfl)
    · rw [hdropapp]
      simp [List.getLast?_append]
    · rw [hdropapp]
      simp only [List.length_append, List.length_drop, he, List.length_cons, List.length_nil]
      rw [hT]
      omega


/-- C1 counterexample: inserting STRING_CACHE_MAX_ENTRIES + 1 = 401
distinct (text, max_width) keys through gr_ttf_string_cache_get leaves 401
entries in the cache: no eviction batch runs at all, because truncation is
only reachable on the cache-hit path (`else if(res->next)`), never on an
insert.  The claim's "exactly one eviction batch removing 150 entries"
would leave 251 entries. -/
theorem claim_C1_counterexample :
    (c1_state (STRING_CACHE_MAX_ENTRIES + 1)).string_cache.length =
      STRING_CACHE_MAX_ENTRIES + 1 ∧
    STRING_CACHE_MAX_ENTRIES + 1 ≠
      STRING_CACHE_MAX_ENTRIES + 1 - STRING_CACHE_TRUNCATE_ENTRIES := by
  constructor
  · rw [c1_state_eq]
    simp [fontN]
  · decide

set_option maxRecDepth 40000 in
/-- C1 amended witness: on a 400-entry cache, a hit on the head entry
triggers one batch removing exactly 150 entries. -/
theorem claim_C1_amended_witness :
    (gr_ttf_string_cache_get (fontN 400) [] 0).2.string_cache.length = 250 := by
  have h := (claim_C1_amended (fontN 400) [] 0).2 0 (by decide) (by decide)
    (by decide) (by decide)
  have hl : (fontN 400).string_cache.length = 400 := by simp [fontN]
  rw [h.2, hl]
  decide

set_option maxRecDepth 40000 in
/-- C3 witness: on a 400-entry cache, the head entry (which is in the
eviction victim zone, the first 150) survives the eviction batch its own
access triggers, ending at the most-recently-used tail position. -/
theorem claim_C3_witness :
    (fontN 400).string_cache.getD 0 default ∈
      (fontN 400).string_cache.take STRING_CACHE_TRUNCATE_ENTRIES ∧
    (fontN 400).string_cache.getD 0 default ∈
      (gr_ttf_string_cache_get (fontN 400) [] 0).2.string_cache := by
  have h := (claim_C3 (fontN 400) [] 0 0 (by decide) (by decide)).2.2
    (by decide) (by decide)
  exact ⟨h.1, h.2.1⟩

/-- A glyph cache is coherent with its face when every cached entry holds
exactly the glyph the face's rasterizer produces for its index. -/
def cacheCoherent (face : FTFace) (cache : GlyphCache) : Prop :=
  ∀ p ∈ cache, face.loadGlyph p.1 = some p.2.glyph

theorem glyph_cache_get_load (face : FTFace) (cache : GlyphCache) (idx : Nat)
    (hcoh : cacheCoherent face cache) (g : FTGlyph)
    (hg : face.loadGlyph idx = some g) :
    ∃ ent cache', gr_ttf_glyph_cache_get face cache idx = (some ent, cache') ∧
      ent.glyph = g ∧ cacheCoherent face cache' := by
  unfold gr_ttf_glyph_cache_get
  cases hpeek : gr_ttf_glyph_cache_peek cache idx with
  | some ent =>
    refine ⟨ent, cache, rfl, ?_, hcoh⟩
    unfold gr_ttf_glyph_cache_peek at hpeek
    cases hfind : List.find? (fun p => p.1 == idx) cache with
    | none => rw [hfind] at hpeek; simp at hpeek
    | some p =>
      rw [hfind] at hpeek
      simp at hpeek
      have hmem := List.mem_of_find?_eq_some hfind
      have hp := List.find?_some hfind
      simp at hp
      have := hcoh p hmem
      rw [hp, hg] at this
      rw [← hpeek]
      exact (Option.some.injEq _ _ ▸ this.symm)
  | none =>
    rw [hg]
    refine ⟨_, _, rfl, rfl, ?_⟩
    intro p hp
    rcases List.mem_append.mp hp with h | h
    · exact hcoh p h
    · simp at h
      rw [h]
      simpa using hg

/-- When the running total already exceeds max_width, the scanning loop of
gr_ttf_maxExW stops without completing another iteration (kerning-free
fonts). -/
theorem maxExW_loop_break (face : FTFace) (W : Int) (hk : face.hasKerning = false)
    (cps : List Nat) (cache : GlyphCache) (prev : Nat) (tw : Int) (ml : Nat)
    (htw : W < tw) :
    (maxExW_loop face W cps cache prev tw ml).2 = ml := by
  cases cps with
  | nil => rfl
  | cons cp rest =>
    rw [maxExW_loop]
    simp [hk, htw]

theorem maxExW_loop_count (face : FTFace) (W : Int) (hk : face.hasKerning = false) :
    ∀ (cps : List Nat) (cache : GlyphCache) (prev : Nat) (tw : Int) (ml : Nat),
    cacheCoherent face cache →
    (∀ cp ∈ cps, ∃ g, face.loadGlyph (face.charIndex cp) = some g) →
    tw ≤ W →
    (maxExW_loop face W cps cache prev tw ml).2 =
      ml + min cps.length (specFitCount (advList face cps) (W - tw) + 1) := by
  intro cps
  induction cps with
  | nil =>
    intro cache prev tw ml _ _ _
    simp [maxExW_loop]
  | cons cp rest ih =>
    intro cache prev tw ml hcoh hload htw
    obtain ⟨g, hg⟩ := hload cp (List.mem_cons_self cp rest)
    obtain ⟨ent, cache', hget, hglyph, hcoh'⟩ :=
      glyph_cache_get_load face cache (face.charIndex cp) hcoh g hg
    rw [maxExW_loop]
    simp only [hk, Bool.false_eq_true, false_and, if_false, ite_false]
    rw [if_neg (by omega), hget]
    simp only [hglyph]
    have hadv : advList face (cp :: rest) = (g.advanceX >>> 16) :: advList face rest := by
      simp [advList, hg]
    rw [hadv]
    by_cases ha : ((g.advanceX >>> 16 : Nat) : Int) ≤ W - tw
    · have hrec := ih cache' (face.charIndex cp) (tw + (g.advanceX >>> 16 : Nat)) (ml + 1)
        hcoh' (fun c hc => hload c (List.mem_cons_of_mem cp hc)) (by omega)
      rw [hrec]
      have hsub : W - (tw + ((g.advanceX >>> 16 : Nat) : Int)) =
          W - tw - ((g.advanceX >>> 16 : Nat) : Int) := by ring
      rw [hsub]
      simp only [specFitCount, if_pos ha, List.length_cons]
      omega
    · have hbrk := maxExW_loop_break face W hk rest cache' (face.charIndex cp)
        (tw + (g.advanceX >>> 16 : Nat)) (ml + 1) (by omega)
      rw [hbrk]
      simp only [specFitCount, if_neg ha, List.length_cons]
      omega

theorem rt_measure_count (face : FTFace) (W : Int) (hk : face.hasKerning = false)
    (hW : W ≠ -1) :
    ∀ (cps : List Nat) (cache : GlyphCache) (prev : Nat) (tw : Int),
    cacheCoherent face cache →
    (∀ cp ∈ cps, ∃ g, face.loadGlyph (face.charIndex cp) = some g) →
    (rt_measure face W cps cache prev tw).2.1.length =
      min cps.length (specFitCount (advList face cps) (W - tw)) := by
  intro cps
  induction cps with
  | nil =>
    intro cache prev tw _ _
    simp [rt_measure]
  | cons cp rest ih =>
    intro cache prev tw hcoh hload
    obtain ⟨g, hg⟩ := hload cp (List.mem_cons_self cp rest)
    obtain ⟨ent, cache', hget, hglyph, hcoh'⟩ :=
      glyph_cache_get_load face cache (face.charIndex cp) hcoh g hg
    rw [rt_measure]
    rw [hget]
    simp only [hglyph, hk, Bool.false_eq_true, false_and, if_false, ite_false]
    have hadv : advList face (cp :: rest) = (g.advanceX >>> 16) :: advList face rest := by
      simp [advList, hg]
    rw [hadv]
    by_cases ha : ((g.advanceX >>> 16 : Nat) : Int) ≤ W - tw
    · rw [if_neg (by
        intro hcon
        exact absurd hcon.2 (by omega))]
      have hrec := ih cache' (face.charIndex cp) (tw + (g.advanceX >>> 16 : Nat))
        hcoh' (fun c hc => hload c (List.mem_cons_of_mem cp hc))
      simp only [List.length_cons, hrec]
      have hsub : W - (tw + ((g.advanceX >>> 16 : Nat) : Int)) =
          W - tw - ((g.advanceX >>> 16 : Nat) : Int) := by ring
      rw [hsub]
      simp only [specFitCount, if_pos ha]
      omega
    · rw [if_pos ⟨hW, by omega⟩]
      simp only [specFitCount, if_neg ha, List.length_cons, List.length_nil]
      omega

/-- With metrics already computed, gr_ttf_render_text succeeds, its reported
length is the measuring pass's count, and the string cache is untouched. -/
theorem render_text_success (font : TrueTypeFont) (s : List Nat) (W : Int)
    (hmh : font.max_height ≠ -1) :
    gr_ttf_render_text font s W =
      (let m := rt_measure font.face W (utf8_decode s) font.glyph_cache 0 0
       let c := rt_composite font.face font.base m.2.1 m.1
         { width := m.2.2, height := font.max_height, stride := m.2.2,
           format := GGL_PIXEL_FORMAT_A_8, data := [] } 0 0
       (some (c.2, m.2.1.length), { font with glyph_cache := c.1 })) := by
  unfold gr_ttf_render_text
  simp [hmh]

/-- C2 amended: for a kerning-free font whose glyphs all rasterize, and a
nonnegative finite max_width W with no cached entry, gr_ttf_maxExW returns
`min (fit count) (glyph count - 1)`, where the fit count is the greatest n
with the first n glyphs' cumulative advance at most W.  So when the scan is
cut off by the width bound the result is the claimed greatest fitting
prefix, but when the entire string fits the result is one less than the
glyph count (the code returns `max_len - 1` unconditionally); the boundary
case W below the first glyph's advance still yields 0. -/
theorem claim_C2_amended (s : List Nat) (font : TrueTypeFont) (W : Int)
    (hk : font.face.hasKerning = false)
    (hcoh : cacheCoherent font.face font.glyph_cache)
    (hload : ∀ cp ∈ utf8_decode s, ∃ g, font.face.loadGlyph (font.face.charIndex cp) = some g)
    (hW : 0 ≤ W)
    (hmiss : gr_ttf_string_cache_peek font s W = none) :
    (gr_ttf_maxExW s font W).1 =
      min (specFitCount (advList font.face (utf8_decode s)) W)
        ((utf8_decode s).length - 1) := by
  simp only [gr_ttf_maxExW, hmiss]
  have hcnt := maxExW_loop_count font.face W hk (utf8_decode s) font.glyph_cache 0 0 0
    hcoh hload hW
  simp only [hcnt]
  have : W - 0 = W := by ring
  rw [this]
  omega

/-- C10 amended: the cached and uncached paths of gr_ttf_maxExW agree
except when the whole string fits within W.  After gr_ttf_string_cache_get
renders and caches the key, the cached path returns rendered_len =
`min (fit count) (glyph count)`, while the uncached scan returns
`min (cached value) (glyph count - 1)`: one less exactly when the entire
string fits (kerning-free font, all glyphs rasterizing, 0 ≤ W). -/
theorem claim_C10_amended (s : List Nat) (font : TrueTypeFont) (W : Int)
    (hk : font.face.hasKerning = false)
    (hcoh : cacheCoherent font.face font.glyph_cache)
    (hload : ∀ cp ∈ utf8_decode s, ∃ g, font.face.loadGlyph (font.face.charIndex cp) = some g)
    (hW : 0 ≤ W)
    (hmh : font.max_height ≠ -1)
    (hmiss : ∀ e ∈ font.string_cache, (e.key == StringCacheKey.mk s W) = false) :
    (gr_ttf_maxExW s (gr_ttf_string_cache_get font s W).2 W).1 =
      min (specFitCount (advList font.face (utf8_decode s)) W) (utf8_decode s).length ∧
    (gr_ttf_maxExW s font W).1 =
      min ((gr_ttf_maxExW s (gr_ttf_string_cache_get font s W).2 W).1)
        ((utf8_decode s).length - 1) := by
  have hnone : List.findIdx? (fun e => e.key == StringCacheKey.mk s W) font.string_cache = none :=
    List.findIdx?_eq_none_iff.mpr hmiss
  have hfindnone : List.find? (fun e => e.key == StringCacheKey.mk s W) font.string_cache = none :=
    List.find?_eq_none.mpr (by
      intro e he
      simp [hmiss e he])
  have hmeasure := rt_measure_count font.face W hk (by omega) (utf8_decode s)
    font.glyph_cache 0 0 hcoh hload
  have hsub0 : W - 0 = W := by ring
  rw [hsub0] at hmeasure
  -- the insertion produced by the miss
  have hget : (gr_ttf_string_cache_get font s W).2.string_cache =
      font.string_cache ++
        [{ surface := (rt_composite font.face font.base
             (rt_measure font.face W (utf8_decode s) font.glyph_cache 0 0).2.1
             (rt_measure font.face W (utf8_decode s) font.glyph_cache 0 0).1
             { width := (rt_measure font.face W (utf8_decode s) font.glyph_cache 0 0).2.2,
               height := font.max_height,
               stride := (rt_measure font.face W (utf8_decode s) font.glyph_cache 0 0).2.2,
               format := GGL_PIXEL_FORMAT_A_8, data := [] } 0 0).2,
           rendered_len := (rt_measure font.face W (utf8_decode s) font.glyph_cache 0 0).2.1.length,
           key := { text := s, max_width := W } }] := by
    simp only [gr_ttf_string_cache_get, hnone, render_text_success font s W hmh]
  constructor
  · simp only [gr_ttf_maxExW, gr_ttf_string_cache_peek, hget, List.find?_append, hfindnone,
      Option.none_or]
    simp [hmeasure]
    omega
  · have hcnt := maxExW_loop_count font.face W hk (utf8_decode s) font.glyph_cache 0 0 0
      hcoh hload hW
    simp only [gr_ttf_maxExW, gr_ttf_string_cache_peek, hget, List.find?_append, hfindnone,
      Option.none_or]
    simp [hcnt, hsub0, hmeasure]
    omega


/-- C2 counterexample: for a one-glyph string whose single advance (5) fits
well within W = 100, gr_ttf_maxExW returns 0, although the claimed
characterisation requires the returned n to make glyph n+1 exceed W:
glyph 1 exists and its cumulative advance 5 does not exceed 100.  (The scan
returns `max_len - 1` even when the entire string fits.) -/
theorem claim_C2_counterexample :
    (gr_ttf_maxExW [65] tFont 100).1 = 0 ∧
    1 ≤ (advList tFont.face (utf8_decode [65])).length ∧
    specCumAdv (advList tFont.face (utf8_decode [65])) (0 + 1) ≤ 100 := by
  refine ⟨?_, by decide, by decide⟩
  decide

/-- C2 amended witness: a two-glyph string with advances [5, 5] under
W = 7: one glyph fits, and the bounded measure returns
min (fit count) (glyph count - 1) = 1. -/
theorem claim_C2_amended_witness :
    (gr_ttf_maxExW [65, 66] tFont 7).1 =
      min (specFitCount (advList tFont.face (utf8_decode [65, 66])) 7)
        ((utf8_decode [65, 66]).length - 1) :=
  claim_C2_amended [65, 66] tFont 7 rfl (by intro p hp; simp [tFont] at hp)
    (fun cp _ => ⟨tGlyph, rfl⟩) (by decide) rfl

/-- C10 counterexample: for the one-glyph string [65] (advance 5) and
W = 100, the uncached scanning loop of gr_ttf_maxExW returns 0, while after
gr_ttf_string_cache_get renders and caches the same (text, max_width) key
the cached rendered_len returned is 1: the bounded measure is not
independent of whether the string was previously rendered. -/
theorem claim_C10_counterexample :
    (gr_ttf_maxExW [65] tFont 100).1 = 0 ∧
    (gr_ttf_maxExW [65] (gr_ttf_string_cache_get tFont [65] 100).2 100).1 = 1 := by
  constructor
  · decide
  · decide

/-- C10 amended witness: instantiated at the one-glyph string [65] with
W = 7 over tFont. -/
theorem claim_C10_amended_witness :
    (gr_ttf_maxExW [65] (gr_ttf_string_cache_get tFont [65] 7).2 7).1 =
      min (specFitCount (advList tFont.face (utf8_decode [65])) 7)
        (utf8_decode [65]).length ∧
    (gr_ttf_maxExW [65] tFont 7).1 =
      min ((gr_ttf_maxExW [65] (gr_ttf_string_cache_get tFont [65] 7).2 7).1)
        ((utf8_decode [65]).length - 1) :=
  claim_C10_amended [65] tFont 7 rfl (by intro p hp; simp [tFont] at hp)
    (fun cp _ => ⟨tGlyph, rfl⟩) (by decide) (by decide) (by intro e he; simp [tFont] at he)

/-- C5 amended: in gr_ttf_textExWH the max_height parameter is an absolute
bottom y-coordinate, not a row count.  When max_height is not the -1
sentinel and is below y + surface height, the drawn rectangle is clipped to
rows y..max_height — that is, max_height - y rows from the top of the
string — and when max_height ≤ y (max_height at most 0 relative to the
draw origin) nothing is drawn and 0 glyphs are reported; without clipping
the full surface height is drawn. -/
theorem claim_C5_amended (font : TrueTypeFont) (x y : Int) (s : List Nat)
    (mh : Int) (e : StringCacheEntry) (font1 : TrueTypeFont)
    (hget : gr_ttf_string_cache_get font s (-1) = (some e, font1))
    (hmh : mh ≠ -1) :
    (mh < y + e.surface.height →
      (mh ≤ y → gr_ttf_textExWH font x y s (-1) mh = (0, none, font1)) ∧
      (y < mh → gr_ttf_textExWH font x y s (-1) mh =
        ((e.rendered_len : Int), some (x, y, x + e.surface.width, mh), font1))) ∧
    (y + e.surface.height ≤ mh →
      gr_ttf_textExWH font x y s (-1) mh =
        ((e.rendered_len : Int),
         some (x, y, x + e.surface.width, y + e.surface.height), font1)) := by
  have hbody : gr_ttf_textExWH font x y s (-1) mh =
      (let y_bottom := y + e.surface.height
       let res : Int := e.rendered_len
       if mh ≠ -1 ∧ mh < y_bottom then
         if mh ≤ y then (0, none, font1)
         else (res, some (x, y, x + e.surface.width, mh), font1)
       else (res, some (x, y, x + e.surface.width, y_bottom), font1)) := by
    simp only [gr_ttf_textExWH]
    norm_num
    rw [hget]
  rw [hbody]
  constructor
  · intro hclip
    constructor
    · intro hy
      simp only [if_pos (And.intro hmh hclip), if_pos hy]
    · intro hy
      simp only [if_pos (And.intro hmh hclip)]
      rw [if_neg (by omega)]
  · intro hnoclip
    rw [if_neg (by intro hcon; omega)]

/-- With an empty glyph cache and a rasterizer that fails on every probe,
the metrics scan leaves its accumulator untouched. -/
theorem metrics_scan_all_fail (f : TrueTypeFont) (hgc : f.glyph_cache = [])
    (hload : ∀ i, f.face.loadGlyph i = none) :
    ∀ (cs : List Nat) (acc : Int × Int), metrics_scan f cs acc = acc := by
  intro cs
  induction cs with
  | nil => intro acc; rfl
  | cons c rest ih =>
    intro acc
    obtain ⟨yMin, yMax⟩ := acc
    rw [metrics_scan]
    have hpeek : gr_ttf_glyph_cache_peek f.glyph_cache (f.face.charIndex c) = none := by
      rw [hgc]
      rfl
    rw [hpeek, hload]
    exact ih _

/-- C6 amended: gr_ttf_getMaxFontHeight computes its result once and
returns the cached value unchanged afterwards (first conjunct).  When no
glyph in the scanned range loads, the y extents default to 0 but the fixed
size/4 padding is still added, so max_height and base end up size/4, not 0
(second conjunct, including idempotence of the cached value).  When the
scan finds glyphs, max_height = y_max - y_min + size/4 and
base = y_max + size/4 (third conjunct). -/
theorem claim_C6_amended (f : TrueTypeFont) :
    (f.max_height ≠ -1 → gr_ttf_getMaxFontHeight f = (f.max_height, f)) ∧
    (f.max_height = -1 → f.glyph_cache = [] → (∀ i, f.face.loadGlyph i = none) →
      (gr_ttf_getMaxFontHeight f).1 = ((f.size / 4 : Nat) : Int) ∧
      (gr_ttf_getMaxFontHeight f).2.max_height = ((f.size / 4 : Nat) : Int) ∧
      (gr_ttf_getMaxFontHeight f).2.base = ((f.size / 4 : Nat) : Int) ∧
      gr_ttf_getMaxFontHeight (gr_ttf_getMaxFontHeight f).2 =
        (((f.size / 4 : Nat) : Int), (gr_ttf_getMaxFontHeight f).2)) ∧
    (f.max_height = -1 →
      (metrics_scan f printableRange (LONG_MAX, LONG_MIN)).1 ≤
        (metrics_scan f printableRange (LONG_MAX, LONG_MIN)).2 →
      (gr_ttf_getMaxFontHeight f).1 =
        (metrics_scan f printableRange (LONG_MAX, LONG_MIN)).2 -
          (metrics_scan f printableRange (LONG_MAX, LONG_MIN)).1 + ((f.size / 4 : Nat) : Int) ∧
      (gr_ttf_getMaxFontHeight f).2.base =
        (metrics_scan f printableRange (LONG_MAX, LONG_MIN)).2 + ((f.size / 4 : Nat) : Int)) := by
  refine ⟨?_, ?_, ?_⟩
  · intro hmh
    simp [gr_ttf_getMaxFontHeight, hmh]
  · intro hmh hgc hload
    have hscan := metrics_scan_all_fail f hgc hload printableRange (LONG_MAX, LONG_MIN)
    unfold gr_ttf_getMaxFontHeight
    rw [if_neg (by simp [hmh])]
    simp only [hscan]
    have hgt : LONG_MAX > LONG_MIN := by decide
    simp only [if_pos hgt]
    have hne : (0 : Int) - 0 + ((f.size / 4 : Nat) : Int) ≠ -1 := by omega
    rw [if_pos hne]
    norm_num
  · intro hmh hle
    unfold gr_ttf_getMaxFontHeight
    rw [if_neg (by simp [hmh])]
    have hnot : ¬ (metrics_scan f printableRange (LONG_MAX, LONG_MIN)).1 >
        (metrics_scan f printableRange (LONG_MAX, LONG_MIN)).2 := by omega
    simp only [if_neg hnot]
    norm_num

/-- C4: loading the same (path, size, dpi) twice returns the identical
handle (same registry identity) and bumps the single shared refcount to 2;
at most one slot exists for the triple; the second load consults nothing in
the environment (it holds for every env2, so the face is not re-opened and
the library not re-initialized).  The first release decrements the refcount
to 1 keeping the handle; the second reaches 0 and removes the slot,
dropping the face and both caches; a third load then creates a fresh handle
with a new identity. -/
theorem claim_C4 (env : FTEnv) (path : String) (size dpi : Nat) (face : FTFace)
    (hinit : env.initOk = true) (hopen : env.openFace path size dpi = some face) :
    (gr_ttf_loadFont env font_data0 path size dpi).1 = some 0 ∧
    (gr_ttf_loadFont env (gr_ttf_loadFont env font_data0 path size dpi).2 path size dpi).1 =
      some 0 ∧
    ((gr_ttf_loadFont env (gr_ttf_loadFont env font_data0 path size dpi).2 path size
        dpi).2.fonts.map (fun s => (s.key, s.id, s.refcount))) =
      [(TrueTypeFontKey.mk path size dpi, 0, 2)] ∧
    (∀ env2 : FTEnv,
      gr_ttf_loadFont env2 (gr_ttf_loadFont env font_data0 path size dpi).2 path size dpi =
        gr_ttf_loadFont env (gr_ttf_loadFont env font_data0 path size dpi).2 path size dpi) ∧
    ((gr_ttf_freeFont
        (gr_ttf_loadFont env (gr_ttf_loadFont env font_data0 path size dpi).2 path size
          dpi).2 0).fonts.map (fun s => (s.key, s.id, s.refcount))) =
      [(TrueTypeFontKey.mk path size dpi, 0, 1)] ∧
    (gr_ttf_freeFont
        (gr_ttf_freeFont
          (gr_ttf_loadFont env (gr_ttf_loadFont env font_data0 path size dpi).2 path size
            dpi).2 0) 0).fonts = [] ∧
    (gr_ttf_loadFont env
        (gr_ttf_freeFont
          (gr_ttf_freeFont
            (gr_ttf_loadFont env (gr_ttf_loadFont env font_data0 path size dpi).2 path size
              dpi).2 0) 0) path size dpi).1 = some 1 := by
  have h1 : gr_ttf_loadFont env font_data0 path size dpi =
      (some 0,
       { ft_library := true,
         fonts := [{ key := TrueTypeFontKey.mk path size dpi, id := 0, refcount := 1,
                     font := { size := size, dpi := dpi, face := face, max_height := -1,
                               base := -1, glyph_cache := [], string_cache := [] } }],
         next_id := 1 }) := by
    simp [gr_ttf_loadFont, font_data0, hinit, hopen]
  have h2 : ∀ env2 : FTEnv,
      gr_ttf_loadFont env2 (gr_ttf_loadFont env font_data0 path size dpi).2 path size dpi =
      (some 0,
       { ft_library := true,
         fonts := [{ key := TrueTypeFontKey.mk path size dpi, id := 0, refcount := 2,
                     font := { size := size, dpi := dpi, face := face, max_height := -1,
                               base := -1, glyph_cache := [], string_cache := [] } }],
         next_id := 1 }) := by
    intro env2
    rw [h1]
    simp [gr_ttf_loadFont]
  have h3 : gr_ttf_freeFont
      (gr_ttf_loadFont env (gr_ttf_loadFont env font_data0 path size dpi).2 path size dpi).2 0 =
      { ft_library := true,
        fonts := [{ key := TrueTypeFontKey.mk path size dpi, id := 0, refcount := 1,
                    font := { size := size, dpi := dpi, face := face, max_height := -1,
                              base := -1, glyph_cache := [], string_cache := [] } }],
        next_id := 1 } := by
    rw [h2 env]
    simp [gr_ttf_freeFont]
  have h4 : gr_ttf_freeFont
      (gr_ttf_freeFont
        (gr_ttf_loadFont env (gr_ttf_loadFont env font_data0 path size dpi).2 path size
          dpi).2 0) 0 =
      { ft_library := true, fonts := [], next_id := 1 } := by
    rw [h3]
    simp [gr_ttf_freeFont]
  have h5 : (gr_ttf_loadFont env
      { ft_library := true, fonts := [], next_id := 1 } path size dpi).1 = some 1 := by
    simp [gr_ttf_loadFont, hopen]
  refine ⟨by rw [h1], by rw [h2 env], by rw [h2 env]; simp, fun env2 => by rw [h2 env2, h2 env],
    by rw [h3]; simp, by rw [h4], by rw [h4]; exact h5⟩


/-- C7 witness: instantiates the one-byte case at byte 65 and the
three-byte case at the UTF-8 encoding of U+4E2D. -/
theorem claim_C7_witness :
    utf8_decode [65, 66] = 65 :: utf8_decode [66] ∧
    utf8_decode [0xE4, 0xB8, 0xAD] =
      ((((0xE4 &&& 0x1F) <<< 12) ||| ((0xB8 &&& 0x3F) <<< 6) ||| (0xAD &&& 0x3F)) % 65536)
        :: utf8_decode [] :=
  ⟨(claim_C7 65 0 0 [66] []).1 (by decide),
   (claim_C7 0xE4 0xB8 0xAD [] []).2.1 (by decide)⟩

/-- C4 witness: instantiates the registry scenario at a concrete
environment whose face opening always succeeds. -/
theorem claim_C4_witness :
    (gr_ttf_loadFont tEnv font_data0 "p" 8 160).1 = some 0 ∧
    (gr_ttf_loadFont tEnv
        (gr_ttf_freeFont
          (gr_ttf_freeFont
            (gr_ttf_loadFont tEnv (gr_ttf_loadFont tEnv font_data0 "p" 8 160).2 "p" 8
              160).2 0) 0) "p" 8 160).1 = some 1 := by
  have h := claim_C4 tEnv "p" 8 160 tFace rfl rfl
  exact ⟨h.1, h.2.2.2.2.2.2⟩

/-- C5 counterexample: a cached string surface of height 20 drawn at
y = 10 with max_height = 15: the clip condition "max_height smaller than
the composited surface height" holds (15 < 20), but the drawn rectangle is
rows 10..15, i.e. 5 rows, not the claimed "exactly max_height (15) rows
from the top": max_height is an absolute bottom coordinate, not a row
count. -/
theorem claim_C5_counterexample :
    (gr_ttf_textExWH c5Font 0 10 [65] (-1) 15).2.1 = some (0, 10, 7, 15) ∧
    c5Entry.surface.height = 20 ∧ (15 : Int) < 20 ∧ (15 : Int) - 10 = 5 ∧
    (5 : Int) ≠ 15 := by
  refine ⟨?_, by decide, by decide, by decide, by decide⟩
  decide

/-- C5 amended witness: instantiates the clipping case at c5Font with
y = 10 and max_height = 15, where 15 - 10 = 5 rows are drawn. -/
theorem claim_C5_amended_witness :
    gr_ttf_textExWH c5Font 0 10 [65] (-1) 15 =
      ((3 : Int), some (0, 10, 7, 15), c5Font) := by
  have h := ((claim_C5_amended c5Font 0 10 [65] 15 c5Entry c5Font rfl
    (by decide)).1 (by decide)).2 (by decide)
  simpa [c5Entry] using h

/-- C6 counterexample: a size-8 font whose rasterizer fails on every glyph
of the scanned range computes max_height = 2 (= size/4), not the claimed
default of 0: the y extents default to 0, but the size/4 padding is still
added afterwards. -/
theorem claim_C6_counterexample :
    (gr_ttf_getMaxFontHeight c6Font).1 = 2 ∧ c6Font.size = 8 ∧ (2 : Int) ≠ 0 := by
  refine ⟨?_, by decide, by decide⟩
  decide

/-- C6 amended witness: instantiates the all-probes-fail case at c6Font
(size 8), giving max_height = base = 8 / 4 = 2. -/
theorem claim_C6_amended_witness :
    (gr_ttf_getMaxFontHeight c6Font).1 = ((c6Font.size / 4 : Nat) : Int) ∧
    (gr_ttf_getMaxFontHeight c6Font).2.base = ((c6Font.size / 4 : Nat) : Int) := by
  have h := (claim_C6_amended c6Font).2.1 rfl rfl (fun i => rfl)
  exact ⟨h.1, h.2.2.1⟩

end TrueTypeSpec